import Mathlib

/-!
# Verification of the computer-use browser agent core (`agent.py`)

Shallow embedding of the agent's control loop: action dispatch,
credential vault, coordinate denormalization (modelled with exact
IEEE-754 double semantics, since Python's `int(x / 1000 * w)` computes
in binary64), retry wrapper, safety gate and screenshot retention.
-/

namespace Agent

/-! ## Exact model of binary64 arithmetic for the coordinate mapper

`denormalize_x` in the source is `int(x / 1000 * screen_width)`: Python
evaluates `x / 1000` as a correctly-rounded binary64 division, multiplies
by the width (again correctly rounded), and truncates toward zero.  We
model nonnegative binary64 values exactly as dyadic rationals
`m * 2 ^ e` with a 53-bit significand, covering the normal range (the
agent's coordinate arithmetic never reaches subnormals or overflow). -/

/-- Number of binary digits of `n` (0 for 0), via a fuel counter so that
the kernel can evaluate it. -/
def bitlenAux : Nat → Nat → Nat
  | 0, _ => 0
  | fuel + 1, n => if n = 0 then 0 else bitlenAux fuel (n / 2) + 1

/-- Number of binary digits of `n`: `bitlen 0 = 0`, `bitlen n = log2 n + 1`. -/
def bitlen (n : Nat) : Nat := bitlenAux n n

/-- Round the positive rational `n / d` to the nearest binary64 value
(round half to even), returned as a dyadic pair `(m, e)` denoting
`m * 2 ^ e` with `2 ^ 52 ≤ m ≤ 2 ^ 53`.  `(0, 0)` for `n = 0`. -/
def floatRound (n d : Nat) : Nat × Int :=
  if n = 0 ∨ d = 0 then (0, 0)
  else
    -- shift `n / d` by `2 ^ t` into `(2 ^ 52, 2 ^ 54)`
    let t : Int := 53 + (bitlen d : Int) - (bitlen n : Int)
    let N := n * 2 ^ (max t 0).toNat
    let D := d * 2 ^ (max (-t) 0).toNat
    -- one halving brings the quotient into `(2 ^ 52, 2 ^ 53]`
    let D' := if 2 ^ 53 * D ≤ N then 2 * D else D
    let s : Int := if 2 ^ 53 * D ≤ N then t - 1 else t
    let q := N / D'
    let r := N % D'
    let m := if 2 * r < D' then q
             else if D' < 2 * r then q + 1
             else if q % 2 = 0 then q else q + 1
    (m, -s)

/-- Truncate the dyadic value `m * 2 ^ e` (nonnegative) toward zero,
as Python's `int()` does. -/
def dyadicTrunc (me : Nat × Int) : Nat :=
  if 0 ≤ me.2 then me.1 * 2 ^ me.2.toNat else me.1 / 2 ^ (-me.2).toNat

/-- The binary64 product of the dyadic value `m1 * 2 ^ e1` and the
integer `k`, correctly rounded. -/
def floatMulNat (me : Nat × Int) (k : Nat) : Nat × Int :=
  if 0 ≤ me.2 then floatRound (me.1 * k * 2 ^ me.2.toNat) 1
  else floatRound (me.1 * k) (2 ^ (-me.2).toNat)

/-- `BrowserAgent.denormalize_x` / `denormalize_y` on a nonnegative
normalized coordinate `v` and screen dimension `w`:
`int(v / 1000 * w)` in binary64 arithmetic. -/
def denormalize (v w : Nat) : Nat :=
  dyadicTrunc (floatMulNat (floatRound v 1000) w)

/-- Exact-rational reference value: `floor (v * w / 1000)`. -/
def denormalizeExact (v w : Nat) : Nat := v * w / 1000

/-- `denormalize` on a possibly negative model-issued coordinate:
Python's `int()` truncates toward zero and binary64 arithmetic is
symmetric under negation. -/
def denormalizeInt (v : Int) (w : Nat) : Int :=
  if v < 0 then -(denormalize v.natAbs w : Int) else (denormalize v.toNat w : Int)

/-- The dyadic pair as a rational value. -/
def dyadicValQ (me : Nat × Int) : ℚ := (me.1 : ℚ) * (2 : ℚ) ^ me.2

/-- Round a rational to the nearest binary64 value (normal range). -/
def flq (q : ℚ) : ℚ :=
  let v := dyadicValQ (floatRound q.num.natAbs q.den)
  if q < 0 then -v else v

/-! ## Python string primitives

Structurally recursive models of the Python `str` operations the agent
uses (`.lower()`, `.upper()`, `.endswith()`, `.replace()`,
`.split()`), so that concrete runs reduce in the kernel.  All agent
strings are ASCII, so per-character case mapping suffices. -/

def strToLower (s : String) : String := ⟨s.data.map Char.toLower⟩

def strToUpper (s : String) : String := ⟨s.data.map Char.toUpper⟩

def strEndsWith (s suffix : String) : Bool := suffix.data.isSuffixOf s.data

/-- Python `s.replace(pat, repl)` for nonempty `pat`: replace
left-to-right, non-overlapping.  The fuel is the string length. -/
def replaceAux (pat repl : List Char) : Nat → List Char → List Char
  | 0, s => s
  | _ + 1, [] => []
  | fuel + 1, c :: rest =>
      if pat.isPrefixOf (c :: rest) ∧ pat ≠ [] then
        repl ++ replaceAux pat repl fuel ((c :: rest).drop pat.length)
      else c :: replaceAux pat repl fuel rest

def strReplace (s pat repl : String) : String :=
  ⟨replaceAux pat.data repl.data s.data.length s.data⟩

/-- Python `s.split(sep)` for nonempty `sep`. -/
def splitSepAux (sep : List Char) : Nat → List Char → List Char → List (List Char)
  | 0, acc, s => [acc.reverse ++ s]
  | _ + 1, acc, [] => [acc.reverse]
  | fuel + 1, acc, c :: rest =>
      if sep.isPrefixOf (c :: rest) ∧ sep ≠ [] then
        acc.reverse :: splitSepAux sep fuel [] ((c :: rest).drop sep.length)
      else splitSepAux sep fuel (c :: acc) rest

def strSplit (s sep : String) : List String :=
  (splitSepAux sep.data s.data.length [] s.data).map (fun cs => ⟨cs⟩)

/-! ## Data model (google.genai types, as used by the agent) -/

/-- The `safety_decision` argument attached by the model to a flagged
function call. -/
structure SafetyDict where
  decision : String
  explanation : String
deriving DecidableEq, Repr

/-- A JSON-ish argument value of a model-issued function call. -/
inductive ArgVal where
  | i (n : Int)
  | s (str : String)
  | b (bv : Bool)
  | num (q : ℚ)
  | sd (d : SafetyDict)
deriving DecidableEq, Repr

/-- Python truthiness of an argument value. -/
def ArgVal.truthy : ArgVal → Bool
  | .i n => n ≠ 0
  | .s str => !str.isEmpty
  | .b bv => bv
  | .num q => q ≠ 0
  | .sd _ => true

abbrev FCArgs := List (String × ArgVal)

/-- `types.FunctionCall`: a name and an argument mapping. -/
structure FunctionCall where
  name : String
  args : FCArgs
deriving DecidableEq, Repr

/-- First binding of `key` in an argument mapping. -/
def getArg (args : FCArgs) (key : String) : Option ArgVal :=
  (args.find? (fun p => p.1 = key)).map Prod.snd

def getIntArg (args : FCArgs) (key : String) : Option Int :=
  match getArg args key with
  | some (.i n) => some n
  | _ => none

def getStrArg (args : FCArgs) (key : String) : Option String :=
  match getArg args key with
  | some (.s str) => some str
  | _ => none

def getNumArg (args : FCArgs) (key : String) : Option ℚ :=
  match getArg args key with
  | some (.num q) => some q
  | some (.i n) => some (n : ℚ)
  | _ => none

/-- `args.get(key, default)` read under Python truthiness (used for the
boolean flags `press_enter` / `clear_before_typing`). -/
def getTruthyArgD (args : FCArgs) (key : String) (dflt : Bool) : Bool :=
  match getArg args key with
  | some v => v.truthy
  | none => dflt

/-- `computers.EnvState`: post-action browser state. -/
structure EnvState where
  url : String
  screenshot : String
deriving DecidableEq, Repr

/-- A value of a custom-tool result dictionary. -/
inductive RVal where
  | b (bv : Bool)
  | s (str : String)
  | num (q : ℚ)
  | list (xs : List String)
  | null
deriving DecidableEq, Repr

/-- A custom-tool result dictionary (insertion-ordered). -/
abbrev RDict := List (String × RVal)

/-- `types.FunctionResponseBlob` (the screenshot attachment). -/
structure Blob where
  mimeType : String
  data : String
deriving DecidableEq, Repr

/-- `types.FunctionResponse`: tool result returned to the model.
`parts` is `None` or a list of attachment blobs. -/
structure FunctionResponse where
  name : String
  response : RDict
  parts : Option (List Blob)
deriving DecidableEq, Repr

/-- `types.Part` of a conversation turn (fields not used by the agent
are omitted). -/
structure Part where
  text : Option String := none
  functionCall : Option FunctionCall := none
  functionResponse : Option FunctionResponse := none
deriving DecidableEq, Repr

/-- `types.Content`: one conversation turn. -/
structure Content where
  role : String
  parts : List Part
deriving DecidableEq, Repr

/-- `self._temp_credentials`: `{}` initially, or
`{"username": ..., "password": ...}` after a successful login. -/
structure Vault where
  username : Option String := none
  password : Option String := none
deriving DecidableEq, Repr

def Vault.empty : Vault := {}

/-- `os.environ`, as an ordered association list of environment
variables (iteration order of `os.environ.keys()`). -/
abbrev CredStore := List (String × String)

def envKeys (env : CredStore) : List String := env.map Prod.fst

def envGet (env : CredStore) (key : String) : Option String :=
  (env.find? (fun p => p.1 = key)).map Prod.snd

/-- Python truthiness of `os.environ.get(...)`: `None` and `""` are
falsy. -/
def truthyStr : Option String → Bool
  | some s => !s.isEmpty
  | none => false

/-! ## Credential helpers (`get_available_credentials`, `perform_secure_login`) -/

/-- The site-scan loop of `get_available_credentials`: for every
environment key ending in `_USERNAME` or `_USER` whose matching
`<SITE>_PASSWORD` key also exists, collect the lowercased site name. -/
def availableSites (keys : List String) : List String :=
  keys.filterMap (fun var =>
    if strEndsWith var "_USERNAME" || strEndsWith var "_USER" then
      let site := strReplace (strReplace var "_USERNAME" "") "_USER" ""
      if keys.contains (site ++ "_PASSWORD") then some (strToLower site) else none
    else none)

/-- `get_available_credentials()`: reads only `os.environ.keys()` and
returns site identifiers plus a status message, never values. -/
def get_available_credentials (env : CredStore) : RDict :=
  let sites := availableSites (envKeys env)
  [("available_sites", RVal.list sites),
   ("message", RVal.s ("Credentials are securely stored for: "
      ++ (if sites.isEmpty then "no sites" else String.intercalate ", " sites)
      ++ ". Use perform_secure_login() to authenticate."))]

/-- The raw return dictionary of `perform_secure_login` (never sent to
the model; `handle_action` sanitizes it first). -/
structure LoginResult where
  success : Bool
  message : String
  username : Option String
  password : Option String
deriving DecidableEq, Repr

/-- `perform_secure_login(site)`: look up `<SITE>_USERNAME` (falling
back to `<SITE>_USER`) and `<SITE>_PASSWORD` in the environment. -/
def perform_secure_login (site : String) (env : CredStore) : LoginResult :=
  let site_upper := strToUpper site
  let username_key0 := site_upper ++ "_USERNAME"
  let password_key := site_upper ++ "_PASSWORD"
  let username_key :=
    if (envKeys env).contains username_key0 then username_key0
    else site_upper ++ "_USER"
  let username := envGet env username_key
  let password := envGet env password_key
  if truthyStr username && truthyStr password then
    { success := true
      message := "Credentials retrieved for " ++ site ++ ". Ready to perform login."
      username := username
      password := password }
  else
    { success := false
      message := "No credentials found for " ++ site
        ++ ". Expected environment variables: " ++ username_key ++ " and " ++ password_key
      username := none
      password := none }

/-! ## Action dispatch (`BrowserAgent.handle_action`) -/

/-- A primitive call issued to the browser backend (`Computer`
methods), with denormalized pixel coordinates. -/
inductive BrowserCall where
  | open_web_browser
  | click_at (x y : Int)
  | hover_at (x y : Int)
  | type_text_at (x y : Int) (text : String) (press_enter clear_before_typing : Bool)
  | scroll_document (direction : String)
  | scroll_at (x y : Int) (direction : String) (magnitude : Int)
  | wait_5_seconds
  | go_back
  | go_forward
  | search
  | navigate (url : String)
  | key_combination (keys : List String)
  | drag_and_drop (x y destination_x destination_y : Int)
deriving DecidableEq, Repr

/-- `FunctionResponseT`: built-in actions return `EnvState`, custom
tools return a dictionary. -/
inductive FCResult where
  | envState (e : EnvState)
  | dict (d : RDict)
deriving DecidableEq, Repr

/-- Exceptions raised by the dispatch/loop code. -/
inductive AgentError where
  | unsupportedAction (name : String)
  | badArgs
  | malformedSafetyDecision
  | wouldBlock
deriving DecidableEq, Repr

def USERNAME_PLACEHOLDER : String := "\x7b\x7bUSERNAME\x7d\x7d"
def PASSWORD_PLACEHOLDER : String := "\x7b\x7bPASSWORD\x7d\x7d"

def INSTRUCTION_MSG : String :=
  "Credentials loaded. Use type_text_at with \x7b\x7bUSERNAME\x7d\x7d and \x7b\x7bPASSWORD\x7d\x7d placeholders to enter credentials in the appropriate fields."

/-- Outcome of `handle_action`: the result, the (possibly updated)
credential vault, and the trace of backend calls performed. -/
structure ActionOut where
  result : FCResult
  vault : Vault
  calls : List BrowserCall
deriving Repr

/-- `BrowserAgent.handle_action`.  `screen` is
`browser_computer.screen_size()`; `computer` gives the backend's
response to each primitive call. -/
def handle_action (screen : Nat × Nat) (computer : BrowserCall → EnvState)
    (env : CredStore) (vault : Vault) (action : FunctionCall) :
    Except AgentError ActionOut :=
  let envRes : BrowserCall → Except AgentError ActionOut := fun c =>
    .ok ⟨.envState (computer c), vault, [c]⟩
  if action.name = "open_web_browser" then
    envRes .open_web_browser
  else if action.name = "click_at" then
    match getIntArg action.args "x", getIntArg action.args "y" with
    | some xv, some yv =>
        envRes (.click_at (denormalizeInt xv screen.1) (denormalizeInt yv screen.2))
    | _, _ => .error .badArgs
  else if action.name = "hover_at" then
    match getIntArg action.args "x", getIntArg action.args "y" with
    | some xv, some yv =>
        envRes (.hover_at (denormalizeInt xv screen.1) (denormalizeInt yv screen.2))
    | _, _ => .error .badArgs
  else if action.name = "type_text_at" then
    match getIntArg action.args "x", getIntArg action.args "y",
          getStrArg action.args "text" with
    | some xv, some yv, some text0 =>
        let press_enter := getTruthyArgD action.args "press_enter" false
        let clear_before_typing := getTruthyArgD action.args "clear_before_typing" true
        -- handle special placeholders for secure credentials
        let text :=
          if text0 = USERNAME_PLACEHOLDER ∧ vault.username.isSome then
            vault.username.getD text0
          else if text0 = PASSWORD_PLACEHOLDER ∧ vault.password.isSome then
            vault.password.getD text0
          else text0
        envRes (.type_text_at (denormalizeInt xv screen.1) (denormalizeInt yv screen.2)
          text press_enter clear_before_typing)
    | _, _, _ => .error .badArgs
  else if action.name = "scroll_document" then
    match getStrArg action.args "direction" with
    | some dir => envRes (.scroll_document dir)
    | none => .error .badArgs
  else if action.name = "scroll_at" then
    match getIntArg action.args "x", getIntArg action.args "y",
          getStrArg action.args "direction" with
    | some xv, some yv, some dir =>
        let magnitude0 := (getIntArg action.args "magnitude").getD 800
        if dir = "up" ∨ dir = "down" then
          envRes (.scroll_at (denormalizeInt xv screen.1) (denormalizeInt yv screen.2)
            dir (denormalizeInt magnitude0 screen.2))
        else if dir = "left" ∨ dir = "right" then
          envRes (.scroll_at (denormalizeInt xv screen.1) (denormalizeInt yv screen.2)
            dir (denormalizeInt magnitude0 screen.1))
        else .error .badArgs
    | _, _, _ => .error .badArgs
  else if action.name = "wait_5_seconds" then
    envRes .wait_5_seconds
  else if action.name = "go_back" then
    envRes .go_back
  else if action.name = "go_forward" then
    envRes .go_forward
  else if action.name = "search" then
    envRes .search
  else if action.name = "navigate" then
    match getStrArg action.args "url" with
    | some url => envRes (.navigate url)
    | none => .error .badArgs
  else if action.name = "key_combination" then
    match getStrArg action.args "keys" with
    | some keys => envRes (.key_combination (strSplit keys "+"))
    | none => .error .badArgs
  else if action.name = "drag_and_drop" then
    match getIntArg action.args "x", getIntArg action.args "y",
          getIntArg action.args "destination_x", getIntArg action.args "destination_y" with
    | some xv, some yv, some dxv, some dyv =>
        envRes (.drag_and_drop (denormalizeInt xv screen.1) (denormalizeInt yv screen.2)
          (denormalizeInt dxv screen.1) (denormalizeInt dyv screen.2))
    | _, _, _, _ => .error .badArgs
  else if action.name = "multiply_numbers" then
    match getNumArg action.args "x", getNumArg action.args "y" with
    | some xv, some yv => .ok ⟨.dict [("result", .num (flq (xv * yv)))], vault, []⟩
    | _, _ => .error .badArgs
  else if action.name = "get_available_credentials" then
    .ok ⟨.dict (get_available_credentials env), vault, []⟩
  else if action.name = "perform_secure_login" then
    match getStrArg action.args "site" with
    | some site =>
        let result := perform_secure_login site env
        -- remove sensitive data from the response that goes back to the model
        let safe_result : RDict :=
          [("success", .b result.success), ("message", .s result.message)]
        if result.success then
          .ok ⟨.dict (safe_result ++ [("instruction", .s INSTRUCTION_MSG)]),
               { username := result.username, password := result.password }, []⟩
        else
          .ok ⟨.dict safe_result, vault, []⟩
    | none => .error .badArgs
  else
    .error (.unsupportedAction action.name)

/-! ## Retry wrapper (`BrowserAgent.get_model_response`) -/

def maxRetriesDefault : Nat := 5
def baseDelayDefault : Nat := 1

/-- The `for attempt in range(max_retries)` loop of
`get_model_response`.  `transport k` is the outcome of the `k`-th
(0-indexed) call to the model service.  Returns the overall outcome
(`none` only when the range is empty, i.e. `maxRetries = 0`, where the
Python function falls off the loop), the list of sleep durations
performed, and the number of transport attempts made. -/
def retryLoop {ε ρ : Type} (transport : Nat → Except ε ρ)
    (maxRetries base attempt : Nat) :
    Option (Except ε ρ) × List Nat × Nat :=
  if attempt < maxRetries then
    match transport attempt with
    | .ok r => (some (.ok r), [], 1)
    | .error e =>
      if attempt < maxRetries - 1 then
        let d := base * 2 ^ attempt
        let rest := retryLoop transport maxRetries base (attempt + 1)
        (rest.1, d :: rest.2.1, rest.2.2 + 1)
      else
        (some (.error e), [], 1)
  else (none, [], 0)
termination_by maxRetries - attempt

/-- `BrowserAgent.get_model_response(max_retries, base_delay_s)`. -/
def get_model_response {ε ρ : Type} (transport : Nat → Except ε ρ)
    (maxRetries base : Nat) : Option (Except ε ρ) × List Nat × Nat :=
  retryLoop transport maxRetries base 0

/-! ## Safety gate (`BrowserAgent._get_safety_confirmation`) -/

inductive SafetyRes where
  | CONTINUE
  | TERMINATE
deriving DecidableEq, Repr

/-- The accepted confirmation alphabet (compared after lowercasing). -/
def acceptedInputs : List String := ["y", "n", "ye", "yes", "no"]

/-- The `while decision.lower() not in (...)` prompt loop: consume
inputs until one lowers into the accepted set; return it and how many
inputs were consumed, or `none` if the stream runs out (the real code
would block on `input()` forever). -/
def promptLoop : List String → Option (String × Nat)
  | [] => none
  | tok :: rest =>
      if acceptedInputs.contains (strToLower tok) then some (tok, 1)
      else (promptLoop rest).map (fun p => (p.1, p.2 + 1))

/-- `BrowserAgent._get_safety_confirmation(safety)`, also consuming the
human input stream; returns the resolution and the number of inputs
consumed. -/
def get_safety_confirmation (trust : Bool) (safety : SafetyDict)
    (inputs : List String) : Except AgentError (SafetyRes × Nat) :=
  if safety.decision ≠ "require_confirmation" then .error .malformedSafetyDecision
  else if trust then .ok (.CONTINUE, 0)
  else
    match promptLoop inputs with
    | none => .error .wouldBlock
    | some (tok, k) =>
        if strToLower tok = "n" ∨ strToLower tok = "no" then .ok (.TERMINATE, k)
        else .ok (.CONTINUE, k)

/-! ## Screenshot retention policy (`run_one_iteration`, tail section) -/

def MAX_RECENT_TURN_WITH_SCREENSHOTS : Nat := 3

def PREDEFINED_COMPUTER_USE_FUNCTIONS : List String :=
  ["open_web_browser", "click_at", "hover_at", "type_text_at",
   "scroll_document", "scroll_at", "wait_5_seconds", "go_back",
   "go_forward", "search", "navigate", "key_combination", "drag_and_drop"]

/-- Truthiness of `function_response.parts` (`None` and `[]` falsy). -/
def frPartsTruthy : Option (List Blob) → Bool
  | some (_ :: _) => true
  | _ => false

/-- A part matching the strip condition: a function response with a
truthy `parts` attachment list whose name is a predefined computer-use
function. -/
def partHasScreenshot (p : Part) : Bool :=
  match p.functionResponse with
  | some fr => frPartsTruthy fr.parts && PREDEFINED_COMPUTER_USE_FUNCTIONS.contains fr.name
  | none => false

/-- A user turn counting toward the retention window. -/
def contentHasScreenshot (c : Content) : Bool :=
  c.role = "user" && c.parts.any partHasScreenshot

/-- Strip the binary attachment (`function_response.parts := None`)
from every matching part, keeping the response metadata. -/
def stripPart (p : Part) : Part :=
  if partHasScreenshot p then
    { p with functionResponse := p.functionResponse.map (fun fr => { fr with parts := none }) }
  else p

def stripContent (c : Content) : Content :=
  { c with parts := c.parts.map stripPart }

/-- The pruning pass over the reversed conversation (most recent
first), threading `turn_with_screenshots_found`. -/
def pruneRev (cnt : Nat) : List Content → List Content
  | [] => []
  | c :: rest =>
      if contentHasScreenshot c then
        if MAX_RECENT_TURN_WITH_SCREENSHOTS < cnt + 1 then
          stripContent c :: pruneRev (cnt + 1) rest
        else
          c :: pruneRev (cnt + 1) rest
      else c :: pruneRev cnt rest

/-- The screenshot retention policy applied to the conversation (the
`for content in reversed(self._contents)` loop). -/
def pruneScreenshots (contents : List Content) : List Content :=
  (pruneRev 0 contents.reverse).reverse

/-! ## One loop iteration (`BrowserAgent.run_one_iteration`) -/

/-- `types.Candidate` (the fields the agent reads). -/
structure Candidate where
  content : Option Content
  finishReason : Option String
deriving DecidableEq, Repr

/-- `BrowserAgent.get_text`. -/
def get_text (c : Option Content) : Option String :=
  match c with
  | none => none
  | some content =>
      if content.parts.isEmpty then none
      else
        let texts := content.parts.filterMap (fun p =>
          match p.text with
          | some t => if t.isEmpty then none else some t
          | none => none)
        let joined := String.intercalate " " texts
        if joined.isEmpty then none else some joined

/-- `BrowserAgent.extract_function_calls`. -/
def extract_function_calls (c : Option Content) : List FunctionCall :=
  match c with
  | none => []
  | some content => content.parts.filterMap (fun p => p.functionCall)

inductive Status where
  | COMPLETE
  | CONTINUE
deriving DecidableEq, Repr

/-- Result of processing the function-call list of one model turn:
whether a safety TERMINATE occurred, the collected function responses,
the vault, the backend-call trace, and the unconsumed inputs. -/
structure CallsOut where
  terminated : Bool
  frs : List FunctionResponse
  vault : Vault
  calls : List BrowserCall
  inputs : List String
deriving Repr

/-- The `for function_call in function_calls` loop of
`run_one_iteration`: safety gate, dispatch, response assembly. -/
def processCalls (screen : Nat × Nat) (computer : BrowserCall → EnvState)
    (env : CredStore) (trust : Bool) :
    Vault → List String → List BrowserCall → List FunctionResponse →
    List FunctionCall → Except AgentError CallsOut
  | vault, inputs, calls, frs, [] => .ok ⟨false, frs, vault, calls, inputs⟩
  | vault, inputs, calls, frs, fc :: rest => do
      -- safety gate (when a truthy safety_decision argument is present)
      let gate : Except AgentError (Option SafetyRes × Bool × List String) :=
        match getArg fc.args "safety_decision" with
        | some v =>
            if v.truthy then
              match v with
              | .sd sd => do
                  let (res, k) ← get_safety_confirmation trust sd inputs
                  .ok (some res, true, inputs.drop k)
              | _ => .error .badArgs
            else .ok (none, false, inputs)
        | none => .ok (none, false, inputs)
      let (res, ack, inputs') ← gate
      if res = some .TERMINATE then
        .ok ⟨true, frs, vault, calls, inputs'⟩
      else do
        let out ← handle_action screen computer env vault fc
        let fr : FunctionResponse :=
          match out.result with
          | .envState e =>
              { name := fc.name
                response := [("url", .s e.url)]
                  ++ (if ack then [("safety_acknowledgement", .s "true")] else [])
                parts := some [⟨"image/png", e.screenshot⟩] }
          | .dict d => { name := fc.name, response := d, parts := none }
        processCalls screen computer env trust out.vault inputs'
          (calls ++ out.calls) (frs ++ [fr]) rest

/-- Result of one iteration of the agent loop. -/
structure IterOut where
  status : Status
  contents : List Content
  vault : Vault
  calls : List BrowserCall
  finalReasoning : Option String
  inputs : List String
deriving Repr

/-- `BrowserAgent.run_one_iteration`, from the point where the model's
candidate is in hand (the network acquisition is modelled by
`get_model_response` above): append the model turn, branch on
malformed/no function calls, process the calls, append the user turn
and apply the retention policy. -/
def run_one_iteration (screen : Nat × Nat) (computer : BrowserCall → EnvState)
    (env : CredStore) (trust : Bool) (contents : List Content) (vault : Vault)
    (cand : Candidate) (inputs : List String) : Except AgentError IterOut :=
  let contents1 :=
    match cand.content with
    | some c => contents ++ [c]
    | none => contents
  let reasoning := get_text cand.content
  let fcs := extract_function_calls cand.content
  if fcs.isEmpty ∧ reasoning = none
      ∧ cand.finishReason = some "MALFORMED_FUNCTION_CALL" then
    .ok ⟨.CONTINUE, contents1, vault, [], none, inputs⟩
  else if fcs.isEmpty then
    .ok ⟨.COMPLETE, contents1, vault, [], reasoning, inputs⟩
  else do
    let out ← processCalls screen computer env trust vault inputs [] [] fcs
    if out.terminated then
      .ok ⟨.COMPLETE, contents1, out.vault, out.calls, none, out.inputs⟩
    else
      let contents2 := contents1
        ++ [⟨"user", out.frs.map (fun fr => { functionResponse := some fr })⟩]
      .ok ⟨.CONTINUE, pruneScreenshots contents2, out.vault, out.calls, none, out.inputs⟩

/-- Default content for positional lookups in retention statements. -/
def defaultContent : Content := ⟨"", []⟩

/-- A sample screenshot-bearing user turn (for concrete witnesses). -/
def shotTurn (n : Nat) : Content where
  role := "user"
  parts := [{ text := none
              functionCall := none
              functionResponse := some
                { name := "click_at"
                  response := [("url", RVal.num (n : ℚ))]
                  parts := some [{ mimeType := "image/png", data := "img" }] } }]

/-- The vault after dispatching `action` from vault state `vault`:
unchanged except by a successful `perform_secure_login`. -/
def vaultAfter (action : FunctionCall) (env : CredStore) (vault : Vault) : Vault :=
  if action.name = "perform_secure_login" then
    match getStrArg action.args "site" with
    | some site =>
        if (perform_secure_login site env).success then
          ⟨(perform_secure_login site env).username,
           (perform_secure_login site env).password⟩
        else vault
    | none => vault
  else vault

/-! ## Lemmas: retry wrapper -/

theorem retryLoop_ok {ε ρ : Type} (transport : Nat → Except ε ρ)
    (maxRetries base : Nat) (r : ρ) (efn : Nat → ε) :
    ∀ j attempt, attempt + j < maxRetries →
      (∀ k, k < j → transport (attempt + k) = .error (efn (attempt + k))) →
      transport (attempt + j) = .ok r →
      retryLoop transport maxRetries base attempt =
        (some (.ok r), (List.range j).map (fun k => base * 2 ^ (attempt + k)), j + 1)
  | 0, attempt, hlt, _, hok => by
      rw [retryLoop]
      simp only [Nat.add_zero] at hlt hok
      simp [hlt, hok]
  | j + 1, attempt, hlt, herr, hok => by
      have h0 : transport attempt = .error (efn attempt) := by
        simpa using herr 0 (by omega)
      have hrec := retryLoop_ok transport maxRetries base r efn j (attempt + 1)
        (by omega)
        (fun k hk => by
          have := herr (k + 1) (by omega)
          simpa [Nat.add_assoc, Nat.add_comm 1 k] using this)
        (by simpa [Nat.add_assoc, Nat.add_comm 1 j] using hok)
      rw [retryLoop]
      simp only [show attempt < maxRetries by omega, if_pos, h0]
      simp only [show attempt < maxRetries - 1 by omega, if_pos, hrec]
      have hlist : base * 2 ^ attempt
            :: (List.range j).map (fun k => base * 2 ^ (attempt + 1 + k)) =
          (List.range (j + 1)).map (fun k => base * 2 ^ (attempt + k)) := by
        rw [List.range_succ_eq_map, List.map_cons, List.map_map]
        refine congrArg₂ _ (by norm_num) ?_
        apply List.map_congr_left
        intro k _
        simp only [Function.comp_apply]
        have h : attempt + 1 + k = attempt + k.succ := by omega
        rw [h]
      simp [hlist]

theorem retryLoop_err {ε ρ : Type} (transport : Nat → Except ε ρ)
    (maxRetries base : Nat) (efn : Nat → ε)
    (herr : ∀ k, transport k = .error (efn k)) :
    ∀ n attempt, attempt + n + 1 = maxRetries →
      retryLoop transport maxRetries base attempt =
        (some (.error (efn (maxRetries - 1))),
         (List.range (maxRetries - 1 - attempt)).map (fun k => base * 2 ^ (attempt + k)),
         maxRetries - attempt)
  | 0, attempt, hone => by
      rw [retryLoop]
      simp only [show attempt < maxRetries by omega, if_pos, herr attempt]
      have h1 : ¬ attempt < maxRetries - 1 := by omega
      have h2 : maxRetries - 1 = attempt := by omega
      have h3 : maxRetries - 1 - attempt = 0 := by omega
      have h4 : maxRetries - attempt = 1 := by omega
      simp [h1, h2, h3, h4]
  | n + 1, attempt, hone => by
      have hrec := retryLoop_err transport maxRetries base efn herr n (attempt + 1)
        (by omega)
      rw [retryLoop]
      simp only [show attempt < maxRetries by omega, if_pos, herr attempt]
      simp only [show attempt < maxRetries - 1 by omega, if_pos, hrec]
      have h5 : maxRetries - 1 - attempt = n + 1 := by omega
      have h6 : maxRetries - 1 - (attempt + 1) = n := by omega
      have h7 : maxRetries - (attempt + 1) + 1 = maxRetries - attempt := by omega
      have hlist : base * 2 ^ attempt
            :: (List.range n).map (fun k => base * 2 ^ (attempt + 1 + k)) =
          (List.range (n + 1)).map (fun k => base * 2 ^ (attempt + k)) := by
        rw [List.range_succ_eq_map, List.map_cons, List.map_map]
        refine congrArg₂ _ (by norm_num) ?_
        apply List.map_congr_left
        intro k _
        simp only [Function.comp_apply]
        have h : attempt + 1 + k = attempt + k.succ := by omega
        rw [h]
      simp [h5, h6, h7, hlist]

/-- C7: if the transport fails at the first `j` attempts and `j` is
still within `max_retries`, the wrapper returns the result of the next
attempt, having slept `base * 2 ^ (k - 1)` before each later attempt
`k` it made; with an always-failing transport it makes exactly
`max_retries` attempts (default 5), sleeps only between attempts, and
re-raises the final attempt's error. -/
theorem retry_wrapper_spec {ε ρ : Type} (transport : Nat → Except ε ρ)
    (maxRetries base j : Nat) (r : ρ) (efn : Nat → ε) :
    maxRetriesDefault = 5 ∧ baseDelayDefault = 1 ∧
    (j < maxRetries →
      (∀ k, k < j → transport k = .error (efn k)) →
      transport j = .ok r →
      get_model_response transport maxRetries base =
        (some (.ok r), (List.range j).map (fun k => base * 2 ^ k), j + 1)) ∧
    (0 < maxRetries →
      (∀ k, transport k = .error (efn k)) →
      get_model_response transport maxRetries base =
        (some (.error (efn (maxRetries - 1))),
         (List.range (maxRetries - 1)).map (fun k => base * 2 ^ k),
         maxRetries)) := by
  refine ⟨rfl, rfl, ?_, ?_⟩
  · intro hj herr hok
    have := retryLoop_ok transport maxRetries base r efn j 0 (by omega)
      (fun k hk => by simpa using herr k hk) (by simpa using hok)
    simpa [get_model_response] using this
  · intro hpos herr
    have := retryLoop_err transport maxRetries base efn herr (maxRetries - 1) 0
      (by omega)
    simpa [get_model_response] using this

/-- C7 witness: a transport failing twice then succeeding, with
`max_retries = 5` and unit base delay: success after 3 attempts with
sleeps `[1, 2]`. -/
theorem retry_wrapper_spec_witness :
    get_model_response (fun k => if k < 2 then Except.error k else Except.ok "done") 5 1 =
      (some (Except.ok "done"), [1, 2], 3) := by
  have h := (retry_wrapper_spec (fun k => if k < 2 then Except.error k else Except.ok "done")
      5 1 2 "done" (fun k => k)).2.2.1
    (by omega)
    (fun k hk => by simp [hk])
    (by simp)
  simpa using h

/-! ## Lemmas: safety gate -/

theorem promptLoop_spec :
    ∀ (bad : List String) (tok : String) (rest : List String),
      (∀ b ∈ bad, acceptedInputs.contains (strToLower b) = false) →
      acceptedInputs.contains (strToLower tok) = true →
      promptLoop (bad ++ tok :: rest) = some (tok, bad.length + 1)
  | [], tok, rest, _, htok => by
      have htok' : strToLower tok ∈ acceptedInputs := by simpa using htok
      simp [promptLoop, htok']
  | b :: bad, tok, rest, hbad, htok => by
      have hb : strToLower b ∉ acceptedInputs := by
        simpa using hbad b (by simp)
      have hrec := promptLoop_spec bad tok rest
        (fun x hx => hbad x (by simp [hx])) htok
      simp [promptLoop, hb, hrec]

/-- C8: the safety gate is a pure function of trust mode and the input
stream: with trust mode on it resolves CONTINUE consuming no input;
with trust mode off it consumes inputs up to the first one in the
accepted alphabet (case-insensitive), and resolves TERMINATE exactly
when that input lowers to "n" or "no", CONTINUE otherwise. -/
theorem safety_gate_spec (sd : SafetyDict)
    (hdec : sd.decision = "require_confirmation") :
    (∀ inputs, get_safety_confirmation true sd inputs = .ok (.CONTINUE, 0)) ∧
    (∀ (bad : List String) (tok : String) (rest : List String),
      (∀ b ∈ bad, acceptedInputs.contains (strToLower b) = false) →
      acceptedInputs.contains (strToLower tok) = true →
      get_safety_confirmation false sd (bad ++ tok :: rest) =
        .ok ((if strToLower tok = "n" ∨ strToLower tok = "no"
              then .TERMINATE else .CONTINUE),
             bad.length + 1)) := by
  constructor
  · intro inputs
    simp [get_safety_confirmation, hdec]
  · intro bad tok rest hbad htok
    have hp := promptLoop_spec bad tok rest hbad htok
    simp only [get_safety_confirmation, hdec, ne_eq, not_true_eq_false,
      if_false, Bool.false_eq_true, hp]
    split <;> simp_all

/-- C8 witness: trust off, inputs `["maybe", "NO"]`: the invalid input
is re-prompted past, and the case-insensitive "NO" terminates after
consuming both inputs. -/
theorem safety_gate_spec_witness :
    get_safety_confirmation false ⟨"require_confirmation", "e"⟩ ["maybe", "NO"] =
      .ok (.TERMINATE, 2) := by
  have h := (safety_gate_spec ⟨"require_confirmation", "e"⟩ rfl).2
    ["maybe"] "NO" [] (by decide) (by decide)
  simpa using h

/-! ## Lemmas: screenshot retention -/

theorem partHasScreenshot_stripPart (p : Part) :
    partHasScreenshot (stripPart p) = false := by
  unfold stripPart
  by_cases h : partHasScreenshot p
  · simp only [h, if_true]
    unfold partHasScreenshot at h ⊢
    cases hfr : p.functionResponse with
    | none => simp [hfr] at h
    | some fr => simp [hfr, frPartsTruthy]
  · simp [h]

theorem contentHasScreenshot_stripContent (c : Content) :
    contentHasScreenshot (stripContent c) = false := by
  unfold contentHasScreenshot stripContent
  simp [List.any_map, Function.comp_def, partHasScreenshot_stripPart]

theorem pruneRev_length (cnt : Nat) (l : List Content) :
    (pruneRev cnt l).length = l.length := by
  induction l generalizing cnt with
  | nil => simp [pruneRev]
  | cons c rest ih =>
      unfold pruneRev
      by_cases h : contentHasScreenshot c
      · simp only [h, if_true]
        split <;> simp [ih]
      · simp [h, ih]

theorem pruneRev_saturated (l : List Content) :
    ∀ cnt₁ cnt₂, MAX_RECENT_TURN_WITH_SCREENSHOTS ≤ cnt₁ →
      MAX_RECENT_TURN_WITH_SCREENSHOTS ≤ cnt₂ →
      pruneRev cnt₁ l = pruneRev cnt₂ l := by
  induction l with
  | nil => intro _ _ _ _; rfl
  | cons c rest ih =>
      intro cnt₁ cnt₂ h1 h2
      unfold pruneRev
      by_cases h : contentHasScreenshot c
      · simp only [h, if_true]
        rw [if_pos (by omega), if_pos (by omega), ih (cnt₁ + 1) (cnt₂ + 1) (by omega) (by omega)]
      · simp only [h, Bool.false_eq_true, if_false, ih cnt₁ cnt₂ h1 h2]

theorem pruneRev_idem (l : List Content) :
    ∀ cnt, pruneRev cnt (pruneRev cnt l) = pruneRev cnt l := by
  induction l with
  | nil => intro _; rfl
  | cons c rest ih =>
      intro cnt
      by_cases h : contentHasScreenshot c
      · by_cases hcnt : MAX_RECENT_TURN_WITH_SCREENSHOTS < cnt + 1
        · rw [pruneRev, if_pos h, if_pos hcnt]
          rw [pruneRev, if_neg (by simp [contentHasScreenshot_stripContent])]
          rw [pruneRev_saturated _ cnt (cnt + 1)
            (by unfold MAX_RECENT_TURN_WITH_SCREENSHOTS at hcnt ⊢; omega)
            (by unfold MAX_RECENT_TURN_WITH_SCREENSHOTS at hcnt ⊢; omega)]
          rw [ih (cnt + 1)]
        · rw [pruneRev, if_pos h, if_neg hcnt]
          rw [pruneRev, if_pos h, if_neg hcnt]
          rw [ih (cnt + 1)]
      · rw [pruneRev, if_neg (by simp [h])]
        rw [pruneRev, if_neg (by simp [h])]
        rw [ih cnt]

theorem pruneRev_getD (l : List Content) :
    ∀ cnt i, i < l.length →
      (pruneRev cnt l).getD i defaultContent =
        (if contentHasScreenshot (l.getD i defaultContent) = true ∧
            MAX_RECENT_TURN_WITH_SCREENSHOTS <
              cnt + (l.take (i + 1)).countP contentHasScreenshot
         then stripContent (l.getD i defaultContent)
         else l.getD i defaultContent) := by
  induction l with
  | nil => intro _ i h; simp at h
  | cons c rest ih =>
      intro cnt i hi
      match i with
      | 0 =>
          by_cases h : contentHasScreenshot c
          · rw [pruneRev, if_pos h]
            have hc1 : (List.take 1 (c :: rest)).countP contentHasScreenshot = 1 := by
              simp [h]
            by_cases hcnt : MAX_RECENT_TURN_WITH_SCREENSHOTS < cnt + 1
            · rw [if_pos hcnt]; simp [h, hc1, hcnt]
            · rw [if_neg hcnt]; simp [h, hc1, hcnt]
          · rw [pruneRev, if_neg (by simp [h])]
            simp [h]
      | i + 1 =>
          have hi' : i < rest.length := by simpa using hi
          by_cases h : contentHasScreenshot c
          · rw [pruneRev, if_pos h]
            have heq := ih (cnt + 1) i hi'
            have hcount : ((c :: rest).take (i + 1 + 1)).countP contentHasScreenshot
                = (rest.take (i + 1)).countP contentHasScreenshot + 1 := by
              simp [List.countP_cons, h]
            have hcond : (contentHasScreenshot (rest.getD i defaultContent) = true ∧
                  MAX_RECENT_TURN_WITH_SCREENSHOTS <
                    cnt + 1 + (rest.take (i + 1)).countP contentHasScreenshot) ↔
                (contentHasScreenshot (rest.getD i defaultContent) = true ∧
                  MAX_RECENT_TURN_WITH_SCREENSHOTS <
                    cnt + ((c :: rest).take (i + 1 + 1)).countP contentHasScreenshot) := by
              rw [hcount]
              constructor <;> (intro hx; exact ⟨hx.1, by omega⟩)
            by_cases hcnt : MAX_RECENT_TURN_WITH_SCREENSHOTS < cnt + 1 <;>
              [rw [if_pos hcnt]; rw [if_neg hcnt]] <;>
              · simp only [List.getD_cons_succ]
                rw [heq, if_congr hcond rfl rfl]
          · rw [pruneRev, if_neg (by simp [h])]
            have heq := ih cnt i hi'
            have hcount : ((c :: rest).take (i + 1 + 1)).countP contentHasScreenshot
                = (rest.take (i + 1)).countP contentHasScreenshot := by
              simp [List.countP_cons, h]
            simp only [List.getD_cons_succ]
            rw [heq, hcount]

/-- C5: after pruning, each of the 3 most recent screenshot-bearing
user turns is unchanged, every older one has the binary attachment
stripped from each matching part (metadata mapping and name intact),
and all other turns and parts are unchanged. Index `i` counts from the
most recent turn. -/
theorem screenshot_retention_spec (contents : List Content) :
    (pruneScreenshots contents).length = contents.length ∧
    (∀ i, i < contents.length →
      (pruneScreenshots contents).reverse.getD i defaultContent =
        (if contentHasScreenshot (contents.reverse.getD i defaultContent) = true ∧
            MAX_RECENT_TURN_WITH_SCREENSHOTS <
              (contents.reverse.take (i + 1)).countP contentHasScreenshot
         then stripContent (contents.reverse.getD i defaultContent)
         else contents.reverse.getD i defaultContent)) ∧
    (∀ p : Part, partHasScreenshot p = false → stripPart p = p) ∧
    (∀ (p : Part) (fr : FunctionResponse), p.functionResponse = some fr →
      (stripPart p).functionResponse.map FunctionResponse.name = some fr.name ∧
      (stripPart p).functionResponse.map FunctionResponse.response = some fr.response) ∧
    (∀ p : Part, partHasScreenshot p = true →
      (stripPart p).functionResponse.map FunctionResponse.parts = some none) := by
  refine ⟨?_, ?_, ?_, ?_, ?_⟩
  · simp [pruneScreenshots, pruneRev_length]
  · intro i hi
    have hlen : i < contents.reverse.length := by simpa using hi
    have := pruneRev_getD contents.reverse 0 i hlen
    simpa [pruneScreenshots] using this
  · intro p hp
    simp [stripPart, hp]
  · intro p fr hfr
    unfold stripPart
    split <;> simp [hfr]
  · intro p hp
    unfold stripPart
    rw [if_pos hp]
    unfold partHasScreenshot at hp
    cases hfr : p.functionResponse with
    | none => rw [hfr] at hp; simp at hp
    | some fr => simp [hfr]

/-- C5 witness: five screenshot-bearing turns (plus a model turn);
the two oldest lose their attachments, the three most recent keep
them. -/
theorem screenshot_retention_spec_witness :
    (0 : Nat) < 6 ∧
    (pruneScreenshots [shotTurn 1, shotTurn 2, ⟨"model", []⟩, shotTurn 3,
        shotTurn 4, shotTurn 5]).reverse.getD 4 defaultContent =
      stripContent (shotTurn 2) := by
  have h := (screenshot_retention_spec
    [shotTurn 1, shotTurn 2, ⟨"model", []⟩, shotTurn 3, shotTurn 4, shotTurn 5]).2.1
    4 (by decide)
  refine ⟨by decide, ?_⟩
  rw [h]
  decide

/-- C6: the screenshot retention policy is idempotent: a second
application changes nothing. -/
theorem screenshot_retention_idempotent (contents : List Content) :
    pruneScreenshots (pruneScreenshots contents) = pruneScreenshots contents := by
  unfold pruneScreenshots
  rw [List.reverse_reverse, pruneRev_idem]

/-! ## Lemmas: action dispatch -/

/-- C3: for a `type_text_at` action, the text forwarded to the backend
is the vault's username (resp. password) when the text argument is the
`USERNAME` (resp. `PASSWORD`) placeholder and the vault holds that
value, and the literal text argument in every other case (placeholder
absent or vault empty). -/
theorem type_text_substitution (screen : Nat × Nat)
    (computer : BrowserCall → EnvState) (env : CredStore) (vault : Vault)
    (args : FCArgs) (xv yv : Int) (text0 : String)
    (hx : getIntArg args "x" = some xv) (hy : getIntArg args "y" = some yv)
    (ht : getStrArg args "text" = some text0) :
    (∀ u, text0 = USERNAME_PLACEHOLDER → vault.username = some u →
      handle_action screen computer env vault ⟨"type_text_at", args⟩ =
        .ok ⟨.envState (computer (.type_text_at (denormalizeInt xv screen.1)
              (denormalizeInt yv screen.2) u (getTruthyArgD args "press_enter" false)
              (getTruthyArgD args "clear_before_typing" true))), vault,
            [.type_text_at (denormalizeInt xv screen.1) (denormalizeInt yv screen.2)
              u (getTruthyArgD args "press_enter" false)
              (getTruthyArgD args "clear_before_typing" true)]⟩) ∧
    (∀ p, text0 = PASSWORD_PLACEHOLDER → vault.password = some p →
      handle_action screen computer env vault ⟨"type_text_at", args⟩ =
        .ok ⟨.envState (computer (.type_text_at (denormalizeInt xv screen.1)
              (denormalizeInt yv screen.2) p (getTruthyArgD args "press_enter" false)
              (getTruthyArgD args "clear_before_typing" true))), vault,
            [.type_text_at (denormalizeInt xv screen.1) (denormalizeInt yv screen.2)
              p (getTruthyArgD args "press_enter" false)
              (getTruthyArgD args "clear_before_typing" true)]⟩) ∧
    ((text0 ≠ USERNAME_PLACEHOLDER ∧ text0 ≠ PASSWORD_PLACEHOLDER) ∨ vault = Vault.empty →
      handle_action screen computer env vault ⟨"type_text_at", args⟩ =
        .ok ⟨.envState (computer (.type_text_at (denormalizeInt xv screen.1)
              (denormalizeInt yv screen.2) text0 (getTruthyArgD args "press_enter" false)
              (getTruthyArgD args "clear_before_typing" true))), vault,
            [.type_text_at (denormalizeInt xv screen.1) (denormalizeInt yv screen.2)
              text0 (getTruthyArgD args "press_enter" false)
              (getTruthyArgD args "clear_before_typing" true)]⟩) := by
  refine ⟨?_, ?_, ?_⟩
  · intro u htext hu
    simp [handle_action, hx, hy, ht, htext, hu]
  · intro p htext hp
    have hne : PASSWORD_PLACEHOLDER ≠ USERNAME_PLACEHOLDER := by decide
    simp [handle_action, hx, hy, ht, htext, hp, hne]
  · rintro (⟨h1, h2⟩ | hempty)
    · simp [handle_action, hx, hy, ht, h1, h2]
    · subst hempty
      simp [handle_action, hx, hy, ht, Vault.empty]

/-- C3 witness: with a retrieved pair in the vault, typing the
username placeholder forwards the real username. -/
theorem type_text_substitution_witness :
    handle_action (1000, 1000) (fun _ => ⟨"u", "s"⟩) []
        ⟨some "alice", some "pw"⟩
        ⟨"type_text_at", [("x", .i 500), ("y", .i 500),
          ("text", .s "\x7b\x7bUSERNAME\x7d\x7d")]⟩ =
      .ok ⟨.envState ⟨"u", "s"⟩, ⟨some "alice", some "pw"⟩,
          [.type_text_at 500 500 "alice" false true]⟩ := by
  have h := (type_text_substitution (1000, 1000) (fun _ => ⟨"u", "s"⟩) []
    ⟨some "alice", some "pw"⟩
    [("x", .i 500), ("y", .i 500), ("text", .s "\x7b\x7bUSERNAME\x7d\x7d")]
    500 500 "\x7b\x7bUSERNAME\x7d\x7d" rfl rfl rfl).1
    "alice" rfl rfl
  have hd : denormalizeInt 500 1000 = 500 := by decide
  have hpe : getTruthyArgD [("x", ArgVal.i 500), ("y", ArgVal.i 500),
      ("text", ArgVal.s "\x7b\x7bUSERNAME\x7d\x7d")] "press_enter" false = false := by decide
  have hcl : getTruthyArgD [("x", ArgVal.i 500), ("y", ArgVal.i 500),
      ("text", ArgVal.s "\x7b\x7bUSERNAME\x7d\x7d")] "clear_before_typing" true = true := by decide
  rw [h]
  simp [hd, hpe, hcl]

/-! ## Lemmas: credential sanitization -/

theorem psl_noninterference (env env2 : CredStore) (site : String)
    (hk : envKeys env = envKeys env2)
    (ht : ∀ k, truthyStr (envGet env k) = truthyStr (envGet env2 k)) :
    (perform_secure_login site env).success = (perform_secure_login site env2).success ∧
    (perform_secure_login site env).message = (perform_secure_login site env2).message := by
  unfold perform_secure_login
  simp only [hk, ht]
  split_ifs <;> simp

/-- Dispatch of `perform_secure_login` in closed form. -/
theorem handle_action_psl (screen : Nat × Nat) (computer : BrowserCall → EnvState)
    (env : CredStore) (vault : Vault) (site : String) :
    handle_action screen computer env vault
        ⟨"perform_secure_login", [("site", .s site)]⟩ =
      (if (perform_secure_login site env).success then
        .ok ⟨.dict [("success", .b (perform_secure_login site env).success),
              ("message", .s (perform_secure_login site env).message),
              ("instruction", .s INSTRUCTION_MSG)],
            ⟨(perform_secure_login site env).username,
             (perform_secure_login site env).password⟩, []⟩
       else
        .ok ⟨.dict [("success", .b (perform_secure_login site env).success),
              ("message", .s (perform_secure_login site env).message)],
            vault, []⟩) := by
  rfl

/-- Dispatch of `get_available_credentials` in closed form. -/
theorem handle_action_gac (screen : Nat × Nat) (computer : BrowserCall → EnvState)
    (env : CredStore) (vault : Vault) (args : FCArgs) :
    handle_action screen computer env vault ⟨"get_available_credentials", args⟩ =
      .ok ⟨.dict (get_available_credentials env), vault, []⟩ := by
  rfl

/-- C2: the sanitized result of a dispatched credential retrieval has
exactly the keys success/message (failure) or
success/message/instruction (success); its values, like the
credential-listing result, are a function of the environment's key set
and per-key truthiness only — independent of the secret values
themselves, so no secret can appear in any value returned into the
conversation. -/
theorem credential_sanitization (screen : Nat × Nat)
    (computer : BrowserCall → EnvState) (env env2 : CredStore) (vault vault2 : Vault)
    (site : String) :
    ((handle_action screen computer env vault
        ⟨"perform_secure_login", [("site", .s site)]⟩).map
        (fun out => match out.result with
          | .dict d => d.map Prod.fst
          | .envState _ => []) =
      .ok (if (perform_secure_login site env).success then
            ["success", "message", "instruction"]
           else ["success", "message"])) ∧
    ((get_available_credentials env).map Prod.fst = ["available_sites", "message"]) ∧
    (envKeys env = envKeys env2 →
      (∀ k, truthyStr (envGet env k) = truthyStr (envGet env2 k)) →
      (handle_action screen computer env vault
          ⟨"perform_secure_login", [("site", .s site)]⟩).map (fun out => out.result) =
        (handle_action screen computer env2 vault2
          ⟨"perform_secure_login", [("site", .s site)]⟩).map (fun out => out.result)) ∧
    (envKeys env = envKeys env2 →
      get_available_credentials env = get_available_credentials env2) := by
  refine ⟨?_, ?_, ?_, ?_⟩
  · rw [handle_action_psl]
    split <;> simp [Except.map]
  · simp [get_available_credentials]
  · intro hk ht
    have hni := psl_noninterference env env2 site hk ht
    rw [handle_action_psl, handle_action_psl, ← hni.1, ← hni.2]
    split <;> simp [Except.map, hni.1, hni.2]
  · intro hk
    unfold get_available_credentials
    rw [hk]

/-- C2 witness: a concrete environment: retrieval succeeds with keys
success/message/instruction, and two environments with equal key sets
and truthiness but different secrets yield identical sanitized
results. -/
theorem credential_sanitization_witness :
    (handle_action (800, 600) (fun _ => ⟨"u", "s"⟩)
        [("GITHUB_USERNAME", "alice"), ("GITHUB_PASSWORD", "pw1")] Vault.empty
        ⟨"perform_secure_login", [("site", .s "github")]⟩).map
        (fun out => match out.result with
          | .dict d => d.map Prod.fst
          | .envState _ => []) =
      .ok ["success", "message", "instruction"] ∧
    (handle_action (800, 600) (fun _ => ⟨"u", "s"⟩)
        [("GITHUB_USERNAME", "alice"), ("GITHUB_PASSWORD", "pw1")] Vault.empty
        ⟨"perform_secure_login", [("site", .s "github")]⟩).map (fun out => out.result) =
      (handle_action (800, 600) (fun _ => ⟨"u", "s"⟩)
        [("GITHUB_USERNAME", "bob"), ("GITHUB_PASSWORD", "pw2")] Vault.empty
        ⟨"perform_secure_login", [("site", .s "github")]⟩).map (fun out => out.result) := by
  constructor
  · have h := (credential_sanitization (800, 600) (fun _ => ⟨"u", "s"⟩)
      [("GITHUB_USERNAME", "alice"), ("GITHUB_PASSWORD", "pw1")]
      [("GITHUB_USERNAME", "alice"), ("GITHUB_PASSWORD", "pw1")]
      Vault.empty Vault.empty "github").1
    have hsucc : (perform_secure_login "github"
        [("GITHUB_USERNAME", "alice"), ("GITHUB_PASSWORD", "pw1")]).success = true := by
      decide
    rw [h]
    simp [hsucc]
  · refine (credential_sanitization (800, 600) (fun _ => ⟨"u", "s"⟩)
      [("GITHUB_USERNAME", "alice"), ("GITHUB_PASSWORD", "pw1")]
      [("GITHUB_USERNAME", "bob"), ("GITHUB_PASSWORD", "pw2")]
      Vault.empty Vault.empty "github").2.2.1 (by decide) ?_
    intro k
    by_cases h1 : ("GITHUB_USERNAME" : String) = k <;>
      by_cases h2 : ("GITHUB_PASSWORD" : String) = k <;>
      simp [envGet, List.find?, h1, h2, truthyStr] <;> decide

/-! ## Dispatch table, one closed-form lemma per action name -/

theorem dispatch_open_web_browser (screen : Nat × Nat) (computer : BrowserCall → EnvState)
    (env : CredStore) (vault : Vault) (args : FCArgs) :
    handle_action screen computer env vault ⟨"open_web_browser", args⟩ =
      .ok ⟨.envState (computer .open_web_browser), vault, [.open_web_browser]⟩ := rfl

theorem dispatch_click_at (screen : Nat × Nat) (computer : BrowserCall → EnvState)
    (env : CredStore) (vault : Vault) (args : FCArgs) :
    handle_action screen computer env vault ⟨"click_at", args⟩ =
      (match getIntArg args "x", getIntArg args "y" with
       | some xv, some yv =>
          .ok ⟨.envState (computer (.click_at (denormalizeInt xv screen.1)
                (denormalizeInt yv screen.2))), vault,
              [.click_at (denormalizeInt xv screen.1) (denormalizeInt yv screen.2)]⟩
       | _, _ => .error .badArgs) := rfl

theorem dispatch_hover_at (screen : Nat × Nat) (computer : BrowserCall → EnvState)
    (env : CredStore) (vault : Vault) (args : FCArgs) :
    handle_action screen computer env vault ⟨"hover_at", args⟩ =
      (match getIntArg args "x", getIntArg args "y" with
       | some xv, some yv =>
          .ok ⟨.envState (computer (.hover_at (denormalizeInt xv screen.1)
                (denormalizeInt yv screen.2))), vault,
              [.hover_at (denormalizeInt xv screen.1) (denormalizeInt yv screen.2)]⟩
       | _, _ => .error .badArgs) := rfl

theorem dispatch_type_text_at (screen : Nat × Nat) (computer : BrowserCall → EnvState)
    (env : CredStore) (vault : Vault) (args : FCArgs) :
    handle_action screen computer env vault ⟨"type_text_at", args⟩ =
      (match getIntArg args "x", getIntArg args "y", getStrArg args "text" with
       | some xv, some yv, some text0 =>
          (fun text =>
            .ok ⟨.envState (computer (.type_text_at (denormalizeInt xv screen.1)
                  (denormalizeInt yv screen.2) text (getTruthyArgD args "press_enter" false)
                  (getTruthyArgD args "clear_before_typing" true))), vault,
                [.type_text_at (denormalizeInt xv screen.1) (denormalizeInt yv screen.2)
                  text (getTruthyArgD args "press_enter" false)
                  (getTruthyArgD args "clear_before_typing" true)]⟩)
            (if text0 = USERNAME_PLACEHOLDER ∧ vault.username.isSome then
              vault.username.getD text0
             else if text0 = PASSWORD_PLACEHOLDER ∧ vault.password.isSome then
              vault.password.getD text0
             else text0)
       | _, _, _ => .error .badArgs) := rfl

theorem dispatch_scroll_document (screen : Nat × Nat) (computer : BrowserCall → EnvState)
    (env : CredStore) (vault : Vault) (args : FCArgs) :
    handle_action screen computer env vault ⟨"scroll_document", args⟩ =
      (match getStrArg args "direction" with
       | some dir => .ok ⟨.envState (computer (.scroll_document dir)), vault,
            [.scroll_document dir]⟩
       | none => .error .badArgs) := rfl

theorem dispatch_scroll_at (screen : Nat × Nat) (computer : BrowserCall → EnvState)
    (env : CredStore) (vault : Vault) (args : FCArgs) :
    handle_action screen computer env vault ⟨"scroll_at", args⟩ =
      (match getIntArg args "x", getIntArg args "y", getStrArg args "direction" with
       | some xv, some yv, some dir =>
          if dir = "up" ∨ dir = "down" then
            .ok ⟨.envState (computer (.scroll_at (denormalizeInt xv screen.1)
                  (denormalizeInt yv screen.2) dir
                  (denormalizeInt ((getIntArg args "magnitude").getD 800) screen.2))), vault,
                [.scroll_at (denormalizeInt xv screen.1) (denormalizeInt yv screen.2) dir
                  (denormalizeInt ((getIntArg args "magnitude").getD 800) screen.2)]⟩
          else if dir = "left" ∨ dir = "right" then
            .ok ⟨.envState (computer (.scroll_at (denormalizeInt xv screen.1)
                  (denormalizeInt yv screen.2) dir
                  (denormalizeInt ((getIntArg args "magnitude").getD 800) screen.1))), vault,
                [.scroll_at (denormalizeInt xv screen.1) (denormalizeInt yv screen.2) dir
                  (denormalizeInt ((getIntArg args "magnitude").getD 800) screen.1)]⟩
          else .error .badArgs
       | _, _, _ => .error .badArgs) := rfl

theorem dispatch_wait_5_seconds (screen : Nat × Nat) (computer : BrowserCall → EnvState)
    (env : CredStore) (vault : Vault) (args : FCArgs) :
    handle_action screen computer env vault ⟨"wait_5_seconds", args⟩ =
      .ok ⟨.envState (computer .wait_5_seconds), vault, [.wait_5_seconds]⟩ := rfl

theorem dispatch_go_back (screen : Nat × Nat) (computer : BrowserCall → EnvState)
    (env : CredStore) (vault : Vault) (args : FCArgs) :
    handle_action screen computer env vault ⟨"go_back", args⟩ =
      .ok ⟨.envState (computer .go_back), vault, [.go_back]⟩ := rfl

theorem dispatch_go_forward (screen : Nat × Nat) (computer : BrowserCall → EnvState)
    (env : CredStore) (vault : Vault) (args : FCArgs) :
    handle_action screen computer env vault ⟨"go_forward", args⟩ =
      .ok ⟨.envState (computer .go_forward), vault, [.go_forward]⟩ := rfl

theorem dispatch_search (screen : Nat × Nat) (computer : BrowserCall → EnvState)
    (env : CredStore) (vault : Vault) (args : FCArgs) :
    handle_action screen computer env vault ⟨"search", args⟩ =
      .ok ⟨.envState (computer .search), vault, [.search]⟩ := rfl

theorem dispatch_navigate (screen : Nat × Nat) (computer : BrowserCall → EnvState)
    (env : CredStore) (vault : Vault) (args : FCArgs) :
    handle_action screen computer env vault ⟨"navigate", args⟩ =
      (match getStrArg args "url" with
       | some url => .ok ⟨.envState (computer (.navigate url)), vault, [.navigate url]⟩
       | none => .error .badArgs) := rfl

theorem dispatch_key_combination (screen : Nat × Nat) (computer : BrowserCall → EnvState)
    (env : CredStore) (vault : Vault) (args : FCArgs) :
    handle_action screen computer env vault ⟨"key_combination", args⟩ =
      (match getStrArg args "keys" with
       | some keys => .ok ⟨.envState (computer (.key_combination (strSplit keys "+"))),
            vault, [.key_combination (strSplit keys "+")]⟩
       | none => .error .badArgs) := rfl

theorem dispatch_drag_and_drop (screen : Nat × Nat) (computer : BrowserCall → EnvState)
    (env : CredStore) (vault : Vault) (args : FCArgs) :
    handle_action screen computer env vault ⟨"drag_and_drop", args⟩ =
      (match getIntArg args "x", getIntArg args "y",
             getIntArg args "destination_x", getIntArg args "destination_y" with
       | some xv, some yv, some dxv, some dyv =>
          .ok ⟨.envState (computer (.drag_and_drop (denormalizeInt xv screen.1)
                (denormalizeInt yv screen.2) (denormalizeInt dxv screen.1)
                (denormalizeInt dyv screen.2))), vault,
              [.drag_and_drop (denormalizeInt xv screen.1) (denormalizeInt yv screen.2)
                (denormalizeInt dxv screen.1) (denormalizeInt dyv screen.2)]⟩
       | _, _, _, _ => .error .badArgs) := rfl

theorem dispatch_multiply_numbers (screen : Nat × Nat) (computer : BrowserCall → EnvState)
    (env : CredStore) (vault : Vault) (args : FCArgs) :
    handle_action screen computer env vault ⟨"multiply_numbers", args⟩ =
      (match getNumArg args "x", getNumArg args "y" with
       | some xv, some yv => .ok ⟨.dict [("result", .num (flq (xv * yv)))], vault, []⟩
       | _, _ => .error .badArgs) := rfl

theorem dispatch_unsupported (screen : Nat × Nat) (computer : BrowserCall → EnvState)
    (env : CredStore) (vault : Vault) (name : String) (args : FCArgs)
    (h : ¬ PREDEFINED_COMPUTER_USE_FUNCTIONS.contains name ∧
      name ≠ "multiply_numbers" ∧ name ≠ "get_available_credentials" ∧
      name ≠ "perform_secure_login") :
    handle_action screen computer env vault ⟨name, args⟩ =
      .error (.unsupportedAction name) := by
  obtain ⟨hpre, hm, hg, hp⟩ := h
  simp only [PREDEFINED_COMPUTER_USE_FUNCTIONS, List.contains_cons,
    List.contains_nil, Bool.or_eq_true, beq_iff_eq, not_or] at hpre
  obtain ⟨h1, h2, h3, h4, h5, h6, h7, h8, h9, h10, h11, h12, h13, -⟩ := hpre
  unfold handle_action
  rw [if_neg h1, if_neg h2, if_neg h3, if_neg h4, if_neg h5, if_neg h6, if_neg h7,
    if_neg h8, if_neg h9, if_neg h10, if_neg h11, if_neg h12, if_neg h13,
    if_neg hm, if_neg hg, if_neg hp]

theorem dispatch_perform_secure_login (screen : Nat × Nat)
    (computer : BrowserCall → EnvState) (env : CredStore) (vault : Vault)
    (args : FCArgs) :
    handle_action screen computer env vault ⟨"perform_secure_login", args⟩ =
      (match getStrArg args "site" with
       | some site =>
          if (perform_secure_login site env).success then
            .ok ⟨.dict [("success", .b (perform_secure_login site env).success),
                  ("message", .s (perform_secure_login site env).message),
                  ("instruction", .s INSTRUCTION_MSG)],
                ⟨(perform_secure_login site env).username,
                 (perform_secure_login site env).password⟩, []⟩
          else
            .ok ⟨.dict [("success", .b (perform_secure_login site env).success),
                  ("message", .s (perform_secure_login site env).message)],
                vault, []⟩
       | none => .error .badArgs) := rfl

/-! ## Lemmas: vault frame discipline -/

theorem handle_action_vault (screen : Nat × Nat) (computer : BrowserCall → EnvState)
    (env : CredStore) (vault : Vault) (action : FunctionCall) (out : ActionOut)
    (h : handle_action screen computer env vault action = .ok out) :
    out.vault = vaultAfter action env vault := by
  obtain ⟨name, args⟩ := action
  by_cases h1 : name = "open_web_browser"
  · subst h1; rw [dispatch_open_web_browser] at h
    injection h with h'; subst h'; simp [vaultAfter]
  by_cases h2 : name = "click_at"
  · subst h2; rw [dispatch_click_at] at h
    split at h
    · injection h with h'; subst h'; simp [vaultAfter]
    · exact Except.noConfusion h
  by_cases h3 : name = "hover_at"
  · subst h3; rw [dispatch_hover_at] at h
    split at h
    · injection h with h'; subst h'; simp [vaultAfter]
    · exact Except.noConfusion h
  by_cases h4 : name = "type_text_at"
  · subst h4; rw [dispatch_type_text_at] at h
    split at h
    · injection h with h'; subst h'; simp [vaultAfter]
    · exact Except.noConfusion h
  by_cases h5 : name = "scroll_document"
  · subst h5; rw [dispatch_scroll_document] at h
    split at h
    · injection h with h'; subst h'; simp [vaultAfter]
    · exact Except.noConfusion h
  by_cases h6 : name = "scroll_at"
  · subst h6; rw [dispatch_scroll_at] at h
    split at h
    · split at h
      · injection h with h'; subst h'; simp [vaultAfter]
      · split at h
        · injection h with h'; subst h'; simp [vaultAfter]
        · exact Except.noConfusion h
    · exact Except.noConfusion h
  by_cases h7 : name = "wait_5_seconds"
  · subst h7; rw [dispatch_wait_5_seconds] at h
    injection h with h'; subst h'; simp [vaultAfter]
  by_cases h8 : name = "go_back"
  · subst h8; rw [dispatch_go_back] at h
    injection h with h'; subst h'; simp [vaultAfter]
  by_cases h9 : name = "go_forward"
  · subst h9; rw [dispatch_go_forward] at h
    injection h with h'; subst h'; simp [vaultAfter]
  by_cases h10 : name = "search"
  · subst h10; rw [dispatch_search] at h
    injection h with h'; subst h'; simp [vaultAfter]
  by_cases h11 : name = "navigate"
  · subst h11; rw [dispatch_navigate] at h
    split at h
    · injection h with h'; subst h'; simp [vaultAfter]
    · exact Except.noConfusion h
  by_cases h12 : name = "key_combination"
  · subst h12; rw [dispatch_key_combination] at h
    split at h
    · injection h with h'; subst h'; simp [vaultAfter]
    · exact Except.noConfusion h
  by_cases h13 : name = "drag_and_drop"
  · subst h13; rw [dispatch_drag_and_drop] at h
    split at h
    · injection h with h'; subst h'; simp [vaultAfter]
    · exact Except.noConfusion h
  by_cases h14 : name = "multiply_numbers"
  · subst h14; rw [dispatch_multiply_numbers] at h
    split at h
    · injection h with h'; subst h'; simp [vaultAfter]
    · exact Except.noConfusion h
  by_cases h15 : name = "get_available_credentials"
  · subst h15; rw [handle_action_gac] at h
    injection h with h'; subst h'; simp [vaultAfter]
  by_cases h16 : name = "perform_secure_login"
  · subst h16; rw [dispatch_perform_secure_login] at h
    unfold vaultAfter
    split at h
    · rename_i site hsite
      split at h
      · injection h with h'; subst h'
        rename_i hsucc
        simp [hsite, hsucc]
      · injection h with h'; subst h'
        rename_i hsucc
        simp [hsite, hsucc]
    · exact Except.noConfusion h
  · rw [dispatch_unsupported screen computer env vault name args
      ⟨?_, h14, h15, h16⟩] at h
    · exact Except.noConfusion h
    · simp only [PREDEFINED_COMPUTER_USE_FUNCTIONS, List.contains_cons,
        List.contains_nil, Bool.or_eq_true, beq_iff_eq]
      push_neg
      exact ⟨h1, h2, h3, h4, h5, h6, h7, h8, h9, h10, h11, h12, h13, by simp⟩

/-- C10: the stored credential pair is modified only by a successful
retrieval (which overwrites it with the retrieved pair); a failed
retrieval leaves the stored pair in place, and a type-text dispatch
reads the pair without consuming it — so substitutions after a later
failed retrieval still use the pair from the last successful one. -/
theorem vault_frame_property (screen : Nat × Nat) (computer : BrowserCall → EnvState)
    (env : CredStore) (vault : Vault) (action : FunctionCall) (out : ActionOut)
    (h : handle_action screen computer env vault action = .ok out) :
    (out.vault ≠ vault →
      action.name = "perform_secure_login" ∧
      ∃ site, getStrArg action.args "site" = some site ∧
        (perform_secure_login site env).success = true ∧
        out.vault = ⟨(perform_secure_login site env).username,
                     (perform_secure_login site env).password⟩) ∧
    (∀ site, action.name = "perform_secure_login" →
      getStrArg action.args "site" = some site →
      (perform_secure_login site env).success = false → out.vault = vault) ∧
    (action.name = "type_text_at" → out.vault = vault) ∧
    (∀ site, action.name = "perform_secure_login" →
      getStrArg action.args "site" = some site →
      (perform_secure_login site env).success = true →
      out.vault = ⟨(perform_secure_login site env).username,
                   (perform_secure_login site env).password⟩) := by
  have hv := handle_action_vault screen computer env vault action out h
  refine ⟨?_, ?_, ?_, ?_⟩
  · intro hne
    by_cases hn : action.name = "perform_secure_login"
    · refine ⟨hn, ?_⟩
      cases hsite : getStrArg action.args "site" with
      | none =>
          simp only [vaultAfter, hn, hsite, if_pos, if_true, eq_self_iff_true] at hv
          exact absurd hv hne
      | some site =>
          by_cases hsucc : (perform_secure_login site env).success
          · simp only [vaultAfter, hn, hsite, hsucc, eq_self_iff_true, if_true] at hv
            exact ⟨site, rfl, hsucc, hv⟩
          · simp only [vaultAfter, hn, hsite, eq_self_iff_true, if_true] at hv
            rw [if_neg hsucc] at hv
            exact absurd hv hne
    · unfold vaultAfter at hv
      rw [if_neg hn] at hv
      exact absurd hv hne
  · intro site hn hsite hfail
    simp only [vaultAfter, hn, hsite, hfail, eq_self_iff_true, if_true,
      Bool.false_eq_true, if_false] at hv
    exact hv
  · intro hn
    unfold vaultAfter at hv
    rw [if_neg (by rw [hn]; decide)] at hv
    exact hv
  · intro site hn hsite hsucc
    simp only [vaultAfter, hn, hsite, hsucc, eq_self_iff_true, if_true] at hv
    exact hv

/-- C10 witness: with a pair already stored, a failed retrieval for a
different site leaves the stored pair untouched. -/
theorem vault_frame_property_witness :
    (handle_action (800, 600) (fun _ => ⟨"u", "s"⟩)
        [("GITHUB_USERNAME", "alice"), ("GITHUB_PASSWORD", "pw1")]
        ⟨some "alice", some "pw1"⟩
        ⟨"perform_secure_login", [("site", .s "linkedin")]⟩).map ActionOut.vault =
      .ok ⟨some "alice", some "pw1"⟩ := by
  obtain ⟨out, hrun⟩ : ∃ out, handle_action (800, 600) (fun _ => ⟨"u", "s"⟩)
      [("GITHUB_USERNAME", "alice"), ("GITHUB_PASSWORD", "pw1")]
      ⟨some "alice", some "pw1"⟩
      ⟨"perform_secure_login", [("site", .s "linkedin")]⟩ = .ok out := ⟨_, rfl⟩
  have h := (vault_frame_property (800, 600) (fun _ => ⟨"u", "s"⟩)
      [("GITHUB_USERNAME", "alice"), ("GITHUB_PASSWORD", "pw1")]
      ⟨some "alice", some "pw1"⟩
      ⟨"perform_secure_login", [("site", .s "linkedin")]⟩ out hrun).2.1
    "linkedin" rfl rfl (by decide)
  rw [hrun, Except.map, h]

/-! ## Safety acknowledgement marker -/

/-- C4 counterexample: a flagged custom tool
(`get_available_credentials` with a `safety_decision`), resolved
CONTINUE under trust mode, is answered with the tool's mapping only —
no `safety_acknowledgement` marker appears anywhere in its response,
refuting the claim for mapping-returning actions. -/
theorem safety_ack_counterexample :
    run_one_iteration (800, 600) (fun _ => ⟨"u", "s"⟩) [] true [] Vault.empty
      ⟨some ⟨"model", [⟨none, some ⟨"get_available_credentials",
        [("safety_decision", ArgVal.sd ⟨"require_confirmation", "why"⟩)]⟩, none⟩]⟩,
       none⟩ [] =
      .ok ⟨.CONTINUE,
        [⟨"model", [⟨none, some ⟨"get_available_credentials",
            [("safety_decision", ArgVal.sd ⟨"require_confirmation", "why"⟩)]⟩, none⟩]⟩,
         ⟨"user", [⟨none, none, some ⟨"get_available_credentials",
            get_available_credentials [], none⟩⟩]⟩],
        Vault.empty, [], none, []⟩ ∧
    (get_available_credentials []).all
      (fun kv => kv.1 ≠ "safety_acknowledgement") = true := ⟨rfl, rfl⟩

/-- C4 as amended: for a flagged call resolved CONTINUE, the response
carries the explicit `safety_acknowledgement` marker when the action
returns environment state (built-in actions); for a mapping-returning
custom tool the response is the tool's mapping unchanged, without the
marker. -/
theorem safety_ack_marker (screen : Nat × Nat) (computer : BrowserCall → EnvState)
    (env : CredStore) (vault vault' : Vault) (fc : FunctionCall)
    (inputs : List String) (sd : SafetyDict) (e : EnvState) (d : RDict)
    (calls' : List BrowserCall)
    (hsd : getArg fc.args "safety_decision" = some (.sd sd))
    (hdec : sd.decision = "require_confirmation") :
    (handle_action screen computer env vault fc = .ok ⟨.envState e, vault', calls'⟩ →
      processCalls screen computer env true vault inputs [] [] [fc] =
        .ok ⟨false, [⟨fc.name, [("url", .s e.url), ("safety_acknowledgement", .s "true")],
             some [⟨"image/png", e.screenshot⟩]⟩], vault', calls', inputs⟩) ∧
    (handle_action screen computer env vault fc = .ok ⟨.dict d, vault', calls'⟩ →
      processCalls screen computer env true vault inputs [] [] [fc] =
        .ok ⟨false, [⟨fc.name, d, none⟩], vault', calls', inputs⟩) := by
  constructor
  · intro hact
    simp [processCalls, hsd, ArgVal.truthy, get_safety_confirmation, hdec, hact,
      Except.instMonad, Except.bind, Bind.bind]
  · intro hact
    simp [processCalls, hsd, ArgVal.truthy, get_safety_confirmation, hdec, hact,
      Except.instMonad, Except.bind, Bind.bind]

/-- C4 amended witness: a flagged built-in `go_back` under trust mode
gets the marker in its response. -/
theorem safety_ack_marker_witness :
    processCalls (800, 600) (fun _ => ⟨"u", "s"⟩) [] true Vault.empty [] [] []
        [⟨"go_back", [("safety_decision", ArgVal.sd ⟨"require_confirmation", "e"⟩)]⟩] =
      .ok ⟨false, [⟨"go_back", [("url", .s "u"), ("safety_acknowledgement", .s "true")],
           some [⟨"image/png", "s"⟩]⟩], Vault.empty, [.go_back], []⟩ := by
  have h := (safety_ack_marker (800, 600) (fun _ => ⟨"u", "s"⟩) [] Vault.empty
      Vault.empty ⟨"go_back", [("safety_decision", ArgVal.sd ⟨"require_confirmation", "e"⟩)]⟩
      [] ⟨"require_confirmation", "e"⟩ ⟨"u", "s"⟩ [] [.go_back] rfl rfl).1
    (by rw [dispatch_go_back])
  exact h

/-! ## Denied safety confirmation -/

/-- C1 counterexample: a model turn with two action requests where the
second carries the safety decision; the human denies ("n").  The
iteration returns COMPLETE and appends no user turn, but the first
request's backend call (`click_at`) has already been executed —
refuting "without invoking the browser backend for either
ActionRequest". -/
theorem safety_denied_counterexample :
    run_one_iteration (1440, 900) (fun _ => ⟨"u", "s"⟩) [] false [] Vault.empty
      ⟨some ⟨"model",
        [⟨none, some ⟨"click_at", [("x", ArgVal.i 100), ("y", ArgVal.i 90)]⟩, none⟩,
         ⟨none, some ⟨"navigate", [("url", ArgVal.s "http://a"),
           ("safety_decision", ArgVal.sd ⟨"require_confirmation", "why"⟩)]⟩, none⟩]⟩,
       none⟩ ["n"] =
      .ok ⟨.COMPLETE,
        [⟨"model",
          [⟨none, some ⟨"click_at", [("x", ArgVal.i 100), ("y", ArgVal.i 90)]⟩, none⟩,
           ⟨none, some ⟨"navigate", [("url", ArgVal.s "http://a"),
             ("safety_decision", ArgVal.sd ⟨"require_confirmation", "why"⟩)]⟩, none⟩]⟩],
        Vault.empty, [.click_at 144 81], none, []⟩ := rfl

/-- C1 as amended: when the flagged request comes first of the two,
denial ends the iteration with COMPLETE, no backend call for either
request, and no user turn appended; in general the requests preceding
the flagged one have already been dispatched (see the
counterexample), but no user turn is ever appended. -/
theorem safety_denied_spec (screen : Nat × Nat) (computer : BrowserCall → EnvState)
    (env : CredStore) (contents : List Content) (vault : Vault)
    (fc1 fc2 : FunctionCall) (sd : SafetyDict)
    (bad : List String) (tok : String) (tail : List String)
    (hsd : getArg fc1.args "safety_decision" = some (.sd sd))
    (hdec : sd.decision = "require_confirmation")
    (hbad : ∀ b ∈ bad, acceptedInputs.contains (strToLower b) = false)
    (htok : acceptedInputs.contains (strToLower tok) = true)
    (hdeny : strToLower tok = "n" ∨ strToLower tok = "no") :
    run_one_iteration screen computer env false contents vault
      ⟨some ⟨"model", [⟨none, some fc1, none⟩, ⟨none, some fc2, none⟩]⟩, none⟩
      (bad ++ tok :: tail) =
      .ok ⟨.COMPLETE,
        contents ++ [⟨"model", [⟨none, some fc1, none⟩, ⟨none, some fc2, none⟩]⟩],
        vault, [], none, tail⟩ := by
  have hp := promptLoop_spec bad tok tail hbad htok
  have hgate : get_safety_confirmation false sd (bad ++ tok :: tail) =
      .ok (.TERMINATE, bad.length + 1) := by
    rw [get_safety_confirmation, if_neg (by simp [hdec]), if_neg (by simp), hp]
    simp only []
    rw [if_pos hdeny]
  have hdrop : (bad ++ tok :: tail).drop (bad.length + 1) = tail := by
    rw [show bad.length + 1 = (bad ++ [tok]).length by simp,
      show bad ++ tok :: tail = (bad ++ [tok]) ++ tail by simp]
    exact List.drop_left _ _
  simp [run_one_iteration, extract_function_calls, processCalls, hsd,
    ArgVal.truthy, hgate, hdrop, Except.instMonad, Except.bind, Bind.bind]

/-- C1 amended witness: flagged request first, denial "n": COMPLETE
with no backend calls and no user turn. -/
theorem safety_denied_spec_witness :
    run_one_iteration (1440, 900) (fun _ => ⟨"u", "s"⟩) [] false [] Vault.empty
      ⟨some ⟨"model",
        [⟨none, some ⟨"navigate", [("url", ArgVal.s "http://a"),
           ("safety_decision", ArgVal.sd ⟨"require_confirmation", "why"⟩)]⟩, none⟩,
         ⟨none, some ⟨"click_at", [("x", ArgVal.i 100), ("y", ArgVal.i 90)]⟩, none⟩]⟩,
       none⟩ ["n"] =
      .ok ⟨.COMPLETE,
        [⟨"model",
          [⟨none, some ⟨"navigate", [("url", ArgVal.s "http://a"),
             ("safety_decision", ArgVal.sd ⟨"require_confirmation", "why"⟩)]⟩, none⟩,
           ⟨none, some ⟨"click_at", [("x", ArgVal.i 100), ("y", ArgVal.i 90)]⟩, none⟩]⟩],
        Vault.empty, [], none, []⟩ := by
  have h := safety_denied_spec (1440, 900) (fun _ => ⟨"u", "s"⟩) [] [] Vault.empty
    ⟨"navigate", [("url", ArgVal.s "http://a"),
      ("safety_decision", ArgVal.sd ⟨"require_confirmation", "why"⟩)]⟩
    ⟨"click_at", [("x", ArgVal.i 100), ("y", ArgVal.i 90)]⟩
    ⟨"require_confirmation", "why"⟩ [] "n" [] rfl rfl (by simp) (by decide)
    (by left; decide)
  simpa using h

/-! ## Lemmas: binary64 coordinate mapper -/

theorem bitlenAux_zero : ∀ fuel, bitlenAux fuel 0 = 0
  | 0 => rfl
  | _ + 1 => rfl

theorem bitlenAux_eq : ∀ fuel n, n ≠ 0 → n ≤ fuel →
    bitlenAux fuel n = Nat.log2 n + 1
  | 0, n, hn, hf => by omega
  | fuel + 1, n, hn, hf => by
      rw [bitlenAux, if_neg hn]
      by_cases h1 : n = 1
      · subst h1
        norm_num [bitlenAux_zero]
        rw [Nat.log2]
        norm_num
      · have h2 : 2 ≤ n := by omega
        have hrec := bitlenAux_eq fuel (n / 2) (by omega) (by omega)
        rw [hrec]
        conv_rhs => rw [Nat.log2]
        rw [if_pos (by omega)]

theorem bitlen_eq (n : Nat) (hn : n ≠ 0) : bitlen n = Nat.log2 n + 1 :=
  bitlenAux_eq n n hn (Nat.le_refl n)

theorem bitlen_le (n k : Nat) (hn : n ≠ 0) (h : n < 2 ^ k) : bitlen n ≤ k := by
  rw [bitlen_eq n hn]
  have := (Nat.log2_lt hn).2 h
  omega

theorem bitlen_low (n : Nat) (hn : n ≠ 0) : 2 ^ (bitlen n - 1) ≤ n := by
  rw [bitlen_eq n hn]
  simpa using Nat.log2_self_le hn

theorem bitlen_pos (n : Nat) (hn : n ≠ 0) : 1 ≤ bitlen n := by
  rw [bitlen_eq n hn]; omega

theorem bitlen_pow_mul (a n : Nat) (hn : n ≠ 0) :
    bitlen (2 ^ a * n) = bitlen n + a := by
  have hpos : 2 ^ a * n ≠ 0 := by positivity
  rw [bitlen_eq _ hpos, bitlen_eq n hn]
  have hup : Nat.log2 (2 ^ a * n) < Nat.log2 n + a + 1 := by
    rw [Nat.log2_lt hpos]
    have h1 : (2 : Nat) ^ a * n < 2 ^ a * 2 ^ (Nat.log2 n + 1) := by
      have hpow : (0 : Nat) < 2 ^ a := by positivity
      exact (mul_lt_mul_left hpow).2 Nat.lt_log2_self
    calc 2 ^ a * n < 2 ^ a * 2 ^ (Nat.log2 n + 1) := h1
      _ = 2 ^ (Nat.log2 n + a + 1) := by
          rw [← pow_add]
          congr 1
          omega
  have hlow : Nat.log2 n + a ≤ Nat.log2 (2 ^ a * n) := by
    rw [Nat.le_log2 hpos, pow_add, Nat.mul_comm (2 ^ Nat.log2 n) (2 ^ a)]
    exact Nat.mul_le_mul_left _ (Nat.log2_self_le hn)
  omega

/-- `floatRound` is exact on a dyadic quotient that is an integer below
`2 ^ 53`: rounding `(2 ^ c * k) / 2 ^ c` returns the dyadic pair of
`k` itself. -/
theorem floatRound_pow_mul_int (c k : Nat) (h0 : 0 < k) (hlt : k < 2 ^ 53) :
    floatRound (2 ^ c * k) (2 ^ c) =
      (k * 2 ^ (53 - bitlen k), (bitlen k : Int) - 53) := by
  have hk0 : k ≠ 0 := by omega
  have hb1 : 1 ≤ bitlen k := bitlen_pos k hk0
  have hb53 : bitlen k ≤ 53 := bitlen_le k 53 hk0 hlt
  have hlow : 2 ^ (bitlen k - 1) ≤ k := bitlen_low k hk0
  have hNne : ¬(2 ^ c * k = 0 ∨ 2 ^ c = 0) := by
    push_neg
    constructor <;> positivity
  have hbn : bitlen (2 ^ c * k) = bitlen k + c := bitlen_pow_mul c k hk0
  have hbd : bitlen (2 ^ c) = c + 1 := by
    have h1 : (2 : Nat) ^ c * 1 = 2 ^ c := by ring
    rw [← h1, bitlen_pow_mul c 1 (by omega)]
    have h2 : bitlen 1 = 1 := rfl
    omega
  set b := bitlen k with hbdef
  simp only [floatRound, hbn, hbd]
  rw [if_neg hNne]
  have ht : (53 + ((c + 1 : Nat) : Int) - ((b + c : Nat) : Int)) = ((54 - b : Nat) : Int) := by
    push_cast
    omega
  rw [ht]
  have htm : (max (((54 - b : Nat) : Int)) 0).toNat = 54 - b := by
    omega
  have htm' : (max (-((54 - b : Nat) : Int)) 0).toNat = 0 := by
    omega
  rw [htm, htm']
  have hN : 2 ^ c * k * 2 ^ (54 - b) = 2 ^ c * (k * 2 ^ (54 - b)) := by ring
  have hD : 2 ^ c * 2 ^ (0 : Nat) = 2 ^ c := by ring
  rw [hN, hD]
  have hcond : 2 ^ 53 * 2 ^ c ≤ 2 ^ c * (k * 2 ^ (54 - b)) := by
    have h1 : 2 ^ 53 ≤ k * 2 ^ (54 - b) := by
      calc (2 : Nat) ^ 53 = 2 ^ (b - 1) * 2 ^ (54 - b) := by
            rw [← pow_add]
            congr 1
            omega
        _ ≤ k * 2 ^ (54 - b) := Nat.mul_le_mul_right _ hlow
    calc 2 ^ 53 * 2 ^ c = 2 ^ c * 2 ^ 53 := by ring
      _ ≤ 2 ^ c * (k * 2 ^ (54 - b)) :=
          Nat.mul_le_mul_left _ h1
  rw [if_pos hcond, if_pos hcond]
  have hq : 2 ^ c * (k * 2 ^ (54 - b)) / (2 * 2 ^ c) = k * 2 ^ (53 - b) := by
    have he : 2 ^ c * (k * 2 ^ (54 - b)) = (2 * 2 ^ c) * (k * 2 ^ (53 - b)) := by
      rw [show (54 - b) = (53 - b) + 1 by omega, pow_succ]
      ring
    rw [he, Nat.mul_div_cancel_left _ (by positivity)]
  have hr : 2 ^ c * (k * 2 ^ (54 - b)) % (2 * 2 ^ c) = 0 := by
    have he : 2 ^ c * (k * 2 ^ (54 - b)) = (2 * 2 ^ c) * (k * 2 ^ (53 - b)) := by
      rw [show (54 - b) = (53 - b) + 1 by omega, pow_succ]
      ring
    rw [he]
    exact Nat.mul_mod_right _ _
  rw [hq, hr]
  rw [if_pos (by positivity : 2 * 0 < 2 * 2 ^ c)]
  refine congrArg₂ _ rfl ?_
  omega

theorem dyadicTrunc_shift (k c : Nat) :
    dyadicTrunc (k * 2 ^ c, -(c : Int)) = k := by
  by_cases hc : c = 0
  · subst hc
    simp [dyadicTrunc]
  · have h1 : ¬(0 : Int) ≤ -(c : Int) := by omega
    simp only [dyadicTrunc, h1, if_false]
    have h2 : ((-(-(c : Int))).toNat) = c := by omega
    rw [h2, Nat.mul_div_cancel _ (by positivity)]

/-- C9 counterexample: `denormalize_x` computes `int(v / 1000 * d)` in
binary64; at `v = 290`, `d = 100` this yields 28, while the exact
`floor(v / 1000 * d)` is 29 (`0.29 * 100 = 28.999999999999996` in
Python).  The claimed identity with the exact floor fails. -/
theorem denormalize_floor_counterexample :
    denormalize 290 100 = 28 ∧ denormalizeExact 290 100 = 29 := by decide

/-- C9 as amended: `denormalize` is the binary64 evaluation of
`int(v / 1000 * d)`, which can undershoot the exact
`floor(v * d / 1000)` by one (e.g. at `v = 290`, `d = 100`); the
special values still hold exactly for every screen dimension in the
binary64-exact range — `denormalize 0 d = 0`, `denormalize 1000 d = d`
— and out-of-range inputs are neither rejected nor clamped
(`denormalize 2000 d = 2 * d`). -/
theorem denormalize_spec :
    (∀ w : Nat, denormalize 0 w = 0) ∧
    (∀ w : Nat, 0 < w → w < 2 ^ 53 → denormalize 1000 w = w) ∧
    (∀ w : Nat, 0 < w → 2 * w < 2 ^ 53 → denormalize 2000 w = 2 * w) ∧
    denormalize 290 100 + 1 = denormalizeExact 290 100 := by
  refine ⟨?_, ?_, ?_, by decide⟩
  · intro w
    simp [denormalize, floatRound, floatMulNat, dyadicTrunc]
  · intro w h0 hlt
    have hb53 : bitlen w ≤ 53 := bitlen_le w 53 (by omega) hlt
    have h1 : floatRound 1000 1000 = (2 ^ 52, -52) := by decide
    have h2 : floatMulNat (2 ^ 52, -52) w = floatRound (2 ^ 52 * w) (2 ^ 52) := rfl
    unfold denormalize
    rw [h1, h2, floatRound_pow_mul_int 52 w h0 hlt]
    have hcast : ((bitlen w : Int) - 53) = -(((53 - bitlen w : Nat)) : Int) := by
      omega
    rw [hcast, dyadicTrunc_shift]
  · intro w h0 hlt
    have hb53 : bitlen (2 * w) ≤ 53 := bitlen_le (2 * w) 53 (by omega) hlt
    have h1 : floatRound 2000 1000 = (2 ^ 52, -51) := by decide
    have h2 : floatMulNat (2 ^ 52, -51) w = floatRound (2 ^ 52 * w) (2 ^ 51) := rfl
    have h3 : (2 : Nat) ^ 52 * w = 2 ^ 51 * (2 * w) := by ring
    unfold denormalize
    rw [h1, h2, h3, floatRound_pow_mul_int 51 (2 * w) (by omega) hlt]
    have hcast : ((bitlen (2 * w) : Int) - 53) = -(((53 - bitlen (2 * w) : Nat)) : Int) := by
      omega
    rw [hcast, dyadicTrunc_shift]

/-- C9 amended witness: at the real Playwright screen size 1440×900,
`denormalize 1000` maps to the full dimension, 0 to 0, and 2000 to
twice the width (no clamping). -/
theorem denormalize_spec_witness :
    denormalize 0 900 = 0 ∧ denormalize 1000 1440 = 1440 ∧
    denormalize 2000 1440 = 2880 := by
  refine ⟨denormalize_spec.1 900, ?_, ?_⟩
  · have h := denormalize_spec.2.1 1440 (by omega) (by norm_num)
    exact h
  · have h := denormalize_spec.2.2.1 1440 (by omega) (by norm_num)
    simpa using h

end Agent

-- sanity examples (concrete evaluation)
example : Agent.bitlen 290 = 9 := by decide
example : Agent.denormalize 500 1000 = 500 := by decide
example : Agent.denormalize 290 100 = 28 := by decide
example : Agent.denormalizeExact 290 100 = 29 := by decide
example : Agent.denormalize 1000 1440 = 1440 := by decide
example : Agent.denormalize 0 900 = 0 := by decide
example : Agent.denormalize 2000 900 = 1800 := by decide
